import Mathlib

set_option maxHeartbeats 1000000

/-!
Verification of the go-i18n v2 message bundle (src/v2/i18n/bundle.go).

Modelling conventions:
* A golang.org/x/text `language.Tag` is modelled by its canonical string
  form; a `language.Matcher` is modelled by the list of supported tags it
  was built from (`language.NewMatcher(tags)` keeps exactly that list as
  its search space).
* Go maps are modelled by association lists with unique keys: `setA`
  replaces the entry in place or appends a fresh key, matching a Go map
  write; the code never observes map key order (the one map iteration, in
  `addTag`, is a pure existence check).
* The `unmarshalFuncs` field of `Bundle` is omitted: no claim mentions it
  and no modelled operation touches it.
-/

abbrev Tag := String

abbrev CountryCode := String

/-- Plural categories, the fixed closed CLDR set. -/
inductive PluralCategory where
  | zero
  | one
  | two
  | few
  | many
  | other
deriving DecidableEq

/-- Modelled from the spec (section 3): a PluralRule maps a count to a plural category
(internal/plural is not under src/). -/
def PluralRule := Nat → PluralCategory

/-- Modelled from the spec (section 3): a source Message record, an ID plus up to six
plural-form text fields where Other is mandatory (message.go is not under src/). -/
structure Message where
  id : String
  zero : Option String := none
  one : Option String := none
  two : Option String := none
  few : Option String := none
  many : Option String := none
  other : String
deriving DecidableEq

/-- Modelled from the spec (section 3): the compiled form of a Message, same ID and
per-category text (message_template.go is not under src/). -/
structure MessageTemplate where
  message : Message
deriving DecidableEq

/-- Modelled from the spec (section 4.1): NewMessageTemplate compiles a Message into a
MessageTemplate, keeping the ID and the per-category text. -/
def NewMessageTemplate (m : Message) : MessageTemplate := ⟨m⟩

/-- Association-list read, modelling a Go map read. -/
def lookupA {β : Type} (k : String) : List (String × β) → Option β
  | [] => none
  | (k', v) :: rest => if k = k' then some v else lookupA k rest

/-- Association-list write, modelling a Go map write: replace in place, or append a
fresh key. -/
def setA {β : Type} (k : String) (v : β) : List (String × β) → List (String × β)
  | [] => [(k, v)]
  | (k', v') :: rest => if k = k' then (k, v) :: rest else (k', v') :: setA k v rest

/-- The keys of an association list. -/
def keysOf {β : Type} : List (String × β) → List String
  | [] => []
  | e :: rest => e.1 :: keysOf rest

/-- The plural-rule table, `plural.Rules` (a map from tag to rule). -/
abbrev Rules := List (Tag × PluralRule)

/-- Characters before the first hyphen. -/
def untilDash : List Char → List Char
  | [] => []
  | c :: rest => if c = '-' then [] else c :: untilDash rest

/-- Base language of a tag: the part before the first hyphen (the spec's
"base language" relation, e.g. "en-US" relates to "en"). -/
def baseLang (t : Tag) : Tag := ⟨untilDash t.data⟩

/-- Modelled from the spec (section 4.3): `plural.Rules.Rule` (internal/plural is not
under src/) returns the rule for the most specific matching tag: exact tag first,
then the base language, and none if nothing matches. -/
def Rules.Rule (r : Rules) (tag : Tag) : Option PluralRule :=
  match lookupA tag r with
  | some rule => some rule
  | none => if baseLang tag = tag then none else lookupA (baseLang tag) r

/-- Modelled from the spec (section 4.3): the English plural rule, One iff the count
is 1, else Other. -/
def englishRule : PluralRule := fun n => if n = 1 then .one else .other

/-- Modelled from the spec (section 4.3): the Turkish plural rule, One iff the count
is 1, else Other. -/
def turkishRule : PluralRule := fun n => if n = 1 then .one else .other

/-- Modelled from the spec (section 4.3): the German plural rule, One iff the count
is 1, else Other. -/
def germanRule : PluralRule := fun n => if n = 1 then .one else .other

/-- Modelled from the spec (section 4.3): `plural.DefaultRules` (internal/plural is
not under src/) seeds rules for common language tags; the claims only need that a
few base languages, including English, are present and that most strings are not. -/
def DefaultRules : Rules := [("en", englishRule), ("tr", turkishRule), ("de", germanRule)]

/-- The state of `Bundle` (bundle.go lines 20-27), minus the unmarshalFuncs field
(see the module docstring). `matcher` is the supported-tag list of the stored
`language.Matcher`, `none` while the Go field is still nil. -/
structure Bundle where
  defaultLanguage : Tag
  messageTemplates : List (String × List (String × MessageTemplate))
  pluralRules : Rules
  countryTagPair : List (CountryCode × List Tag)
  matcher : Option (List Tag)

/-- bundle.go line 31: the tag used for artificial languages. -/
def artTag : Tag := "art"

/-- bundle.go lines 154-156: the messageTemplates key for a (countryCode, tag) pair. -/
def messageTemplateKey (countryCode : CountryCode) (tag : Tag) : String :=
  countryCode ++ "-" ++ tag

/-- The double loop at the top of `addTag` (bundle.go lines 123-130): does the
(countryCode, tag) pair already occur in countryTagPair? -/
def pairExists (m : List (CountryCode × List Tag)) (countryCode : CountryCode) (tag : Tag) : Bool :=
  m.any fun p => p.2.any fun t => p.1 == countryCode && t == tag

/-- bundle.go lines 122-137: `addTag` returns early if the pair exists, otherwise
appends the tag to the country's list and rebuilds the matcher from that list. -/
def addTag (b : Bundle) (countryCode : CountryCode) (tag : Tag) : Bundle :=
  if pairExists b.countryTagPair countryCode tag then b
  else
    let tags := (lookupA countryCode b.countryTagPair).getD [] ++ [tag]
    { b with countryTagPair := setA countryCode tags b.countryTagPair,
             matcher := some tags }

/-- bundle.go lines 33-42: `NewBundle` seeds the default plural rules, aliases the
"art" tag to the rule found for English, and registers the default language under
the given country code. The `none` branch of the match (the Go code would store a
nil rule pointer, which `Rule` skips) is unreachable: DefaultRules contains "en". -/
def NewBundle (countryCode : CountryCode) (defaultLanguage : Tag) : Bundle :=
  let rules :=
    match Rules.Rule DefaultRules "en" with
    | some r => setA artTag r DefaultRules
    | none => DefaultRules
  addTag
    { defaultLanguage := defaultLanguage
      messageTemplates := []
      pluralRules := rules
      countryTagPair := []
      matcher := none } countryCode defaultLanguage

/-- The error returned by AddMessages (bundle.go line 99): no plural rule is
registered for the tag. -/
inductive AddError where
  | noPluralRule (tag : Tag)
deriving DecidableEq

/-- bundle.go lines 109-111: the message loop of AddMessages stores each message's
compiled template under its ID in the pair's template map (last write wins). -/
def storeTemplates (b : Bundle) (countryCode : CountryCode) (tag : Tag)
    (messages : List Message) : Bundle :=
  { b with
      messageTemplates := setA (messageTemplateKey countryCode tag)
                            (messages.foldl
                              (fun ts m => setA m.id (NewMessageTemplate m) ts)
                              ((lookupA (messageTemplateKey countryCode tag)
                                  b.messageTemplates).getD []))
                            b.messageTemplates }

/-- bundle.go lines 96-113: `AddMessages`. Checks for a plural rule first; creates
the pair's template map and registers the tag when the key is fresh; then runs the
message loop (`storeTemplates`). -/
def AddMessages (b : Bundle) (countryCode : CountryCode) (tag : Tag)
    (messages : List Message) : Except AddError Bundle :=
  if (Rules.Rule b.pluralRules tag).isNone then
    .error (.noPluralRule tag)
  else
    .ok (storeTemplates
      (if (lookupA (messageTemplateKey countryCode tag) b.messageTemplates).isNone then
        addTag
          { b with
              messageTemplates := setA (messageTemplateKey countryCode tag) []
                                    b.messageTemplates }
          countryCode tag
      else b)
      countryCode tag messages)

/-- bundle.go lines 139-143: `LanguageTags` returns the country's registered tag
list (a missing key reads as the empty list, like a nil Go slice). -/
def LanguageTags (b : Bundle) (countryCode : CountryCode) : List Tag :=
  (lookupA countryCode b.countryTagPair).getD []

/-- bundle.go lines 145-152: `getMessageTemplate` looks up the pair's template map
by key, then the message ID inside it; nil at either level reads as absent. -/
def getMessageTemplate (b : Bundle) (tag : Tag) (id countryCode : String) :
    Option MessageTemplate :=
  match lookupA (messageTemplateKey countryCode tag) b.messageTemplates with
  | none => none
  | some templates => lookupA id templates

/-- Is the tag registered for the country (a member of its LanguageTags list)? -/
def tagRegistered (b : Bundle) (countryCode : CountryCode) (tag : Tag) : Bool :=
  (LanguageTags b countryCode).any fun t => t == tag

/-- A mutation of the Bundle: one AddMessages call. These are the only operations
of bundle.go that write to the modelled state (the Load/Parse entry points reduce
to AddMessages; RegisterUnmarshalFunc touches only the omitted field). -/
inductive Op where
  | add : CountryCode → Tag → List Message → Op

/-- Run one operation; a failed AddMessages leaves the bundle as it was. -/
def applyOp (b : Bundle) : Op → Bundle
  | .add cc tag ms =>
    match AddMessages b cc tag ms with
    | .ok b2 => b2
    | .error _ => b

/-- Run a list of operations in order. -/
def runOps (b : Bundle) (ops : List Op) : Bundle := ops.foldl applyOp b

/-- Did the trace make a successful AddMessages call for the pair (with any number
of messages, possibly zero)? -/
def okCallFor (b : Bundle) : List Op → CountryCode → Tag → Bool
  | [], _, _ => false
  | .add cc1 t1 ms :: rest, cc, t =>
    match AddMessages b cc1 t1 ms with
    | .ok b2 => (cc1 == cc && t1 == t) || okCallFor b2 rest cc t
    | .error _ => okCallFor b rest cc t

/-- Did the trace add at least one message for the pair (a successful AddMessages
call for the pair whose message list is nonempty)? -/
def messageAddedFor (b : Bundle) : List Op → CountryCode → Tag → Bool
  | [], _, _ => false
  | .add cc1 t1 ms :: rest, cc, t =>
    match AddMessages b cc1 t1 ms with
    | .ok b2 => (cc1 == cc && t1 == t && !ms.isEmpty) || messageAddedFor b2 rest cc t
    | .error _ => messageAddedFor b rest cc t

/-- The (countryCode, tag) pairs named by a trace. -/
def opPairs (ops : List Op) : List (CountryCode × Tag) :=
  ops.map fun op => match op with | .add cc t _ => (cc, t)

/-- No two distinct pairs in the list share a messageTemplates key. Go's key is the
plain concatenation countryCode ++ "-" ++ tag, which can alias distinct pairs. -/
def keyInj (ps : List (CountryCode × Tag)) : Prop :=
  ∀ p ∈ ps, ∀ q ∈ ps,
    messageTemplateKey p.1 p.2 = messageTemplateKey q.1 q.2 → p = q

instance (ps : List (CountryCode × Tag)) : Decidable (keyInj ps) := by
  unfold keyInj
  infer_instance

/-- Whether this AddMessages call would register its pair: the pair's template key
is fresh and the pair itself is not yet in countryTagPair. -/
def registersNow (b : Bundle) (countryCode : CountryCode) (tag : Tag) : Bool :=
  (lookupA (messageTemplateKey countryCode tag) b.messageTemplates).isNone &&
    !(pairExists b.countryTagPair countryCode tag)

/-- Every pair of the list whose template key is occupied is registered. -/
def PairsOK (b : Bundle) (ps : List (CountryCode × Tag)) : Prop :=
  ∀ p ∈ ps,
    (lookupA (messageTemplateKey p.1 p.2) b.messageTemplates).isSome = true →
    tagRegistered b p.1 p.2 = true

/-- Well-formedness of the modelled Go maps: unique keys at every level, and no
duplicate tags inside a country's list. Every reachable bundle satisfies this. -/
def WF (b : Bundle) : Prop :=
  (keysOf b.countryTagPair).Nodup ∧
  (keysOf b.messageTemplates).Nodup ∧
  (∀ e ∈ b.messageTemplates, (keysOf e.2).Nodup) ∧
  (∀ e ∈ b.countryTagPair, e.2.Nodup)

instance (b : Bundle) : Decidable (WF b) := by
  unfold WF
  infer_instance

/-- Modelled from the spec (sections 4.2 and 4.4): the Localizer's best-tag matching
(localizer.go is not under src/). Preferences are scanned in ranked order: first an
exact match against the registered tags, then a base-language (region-insensitive)
match against the registered tags in their stored order, and finally the default
language if it is itself registered, else no match. -/
def matchTag (registered : List Tag) (prefs : List Tag) (defaultLanguage : Tag) : Option Tag :=
  match prefs.find? (fun p => registered.any fun r => r == p) with
  | some p => some p
  | none =>
    match prefs.findSome? (fun p => registered.find? fun r => baseLang r == baseLang p) with
    | some r => some r
    | none =>
      if registered.any (fun r => r == defaultLanguage) then some defaultLanguage else none

/-- Modelled from the spec (section 4.4 step 2): matching for a country runs the
matcher over that country's registered tags. -/
def matchForCountry (b : Bundle) (countryCode : CountryCode) (prefs : List Tag) : Option Tag :=
  matchTag (LanguageTags b countryCode) prefs b.defaultLanguage

/-- A concrete message used by the witnesses and counterexamples. -/
def msgHello : Message := { id := "hello", other := "Hello" }

/-- A second concrete message with the same ID as `msgHello` but different text. -/
def msgHello2 : Message := { id := "hello", other := "Hi there" }

/-! Association-list lemmas. -/

theorem lookupA_setA_self {β : Type} (k : String) (v : β) (l : List (String × β)) :
    lookupA k (setA k v l) = some v := by
  induction l with
  | nil => simp [setA, lookupA]
  | cons e rest ih =>
    obtain ⟨k1, v1⟩ := e
    by_cases h : k = k1
    · simp [setA, h, lookupA]
    · simp [setA, h, lookupA, ih]

theorem lookupA_setA_ne {β : Type} {k k2 : String} (h : k2 ≠ k) (v : β)
    (l : List (String × β)) : lookupA k2 (setA k v l) = lookupA k2 l := by
  induction l with
  | nil => simp [setA, lookupA, h]
  | cons e rest ih =>
    obtain ⟨k1, v1⟩ := e
    by_cases h1 : k = k1
    · subst h1
      simp [setA, lookupA, h, ih]
    · by_cases h2 : k2 = k1 <;> simp [setA, lookupA, h1, h2, ih]

theorem setA_setA {β : Type} (k : String) (v w : β) (l : List (String × β)) :
    setA k v (setA k w l) = setA k v l := by
  induction l with
  | nil => simp [setA]
  | cons e rest ih =>
    obtain ⟨k1, v1⟩ := e
    by_cases h : k = k1
    · simp [setA, h]
    · simp [setA, h, ih]

theorem mem_setA {β : Type} {e : String × β} {k : String} {v : β} {l : List (String × β)}
    (h : e ∈ setA k v l) : e = (k, v) ∨ e ∈ l := by
  induction l with
  | nil => simpa [setA] using h
  | cons e1 rest ih =>
    obtain ⟨k1, v1⟩ := e1
    by_cases h1 : k = k1
    · simp [setA, h1] at h
      rcases h with h | h
      · exact Or.inl (by simp [h, h1])
      · exact Or.inr (by simp [h])
    · simp [setA, h1] at h
      rcases h with h | h
      · exact Or.inr (by simp [h])
      · rcases ih h with h2 | h2
        · exact Or.inl h2
        · exact Or.inr (by simp [h2])

theorem keysOf_setA_mem {β : Type} {k : String} {l : List (String × β)} (v : β)
    (h : k ∈ keysOf l) : keysOf (setA k v l) = keysOf l := by
  induction l with
  | nil => simp [keysOf] at h
  | cons e rest ih =>
    obtain ⟨k1, v1⟩ := e
    by_cases h1 : k = k1
    · simp [setA, h1, keysOf]
    · simp [keysOf, h1] at h
      simp [setA, h1, keysOf] at ih ⊢
      exact ih h

theorem keysOf_setA_not_mem {β : Type} {k : String} {l : List (String × β)} (v : β)
    (h : k ∉ keysOf l) : keysOf (setA k v l) = keysOf l ++ [k] := by
  induction l with
  | nil => simp [setA, keysOf]
  | cons e rest ih =>
    obtain ⟨k1, v1⟩ := e
    simp [keysOf] at h
    push_neg at h
    simp [setA, h.1, keysOf] at ih ⊢
    exact ih h.2

theorem nodup_keysOf_setA {β : Type} {k : String} {l : List (String × β)} (v : β)
    (h : (keysOf l).Nodup) : (keysOf (setA k v l)).Nodup := by
  by_cases hm : k ∈ keysOf l
  · rwa [keysOf_setA_mem v hm]
  · rw [keysOf_setA_not_mem v hm]
    simp [List.nodup_append, h, hm]

theorem lookupA_mem {β : Type} {k : String} {v : β} {l : List (String × β)}
    (h : lookupA k l = some v) : (k, v) ∈ l := by
  induction l with
  | nil => simp [lookupA] at h
  | cons e rest ih =>
    obtain ⟨k1, v1⟩ := e
    by_cases h1 : k = k1
    · simp [lookupA, h1] at h
      simp [h1, h]
    · simp [lookupA, h1] at h
      exact List.mem_cons_of_mem _ (ih h)

theorem lookupA_eq_none {β : Type} {k : String} {l : List (String × β)}
    (h : k ∉ keysOf l) : lookupA k l = none := by
  induction l with
  | nil => simp [lookupA]
  | cons e rest ih =>
    obtain ⟨k1, v1⟩ := e
    simp [keysOf] at h
    push_neg at h
    simp [lookupA, h.1]
    simp [keysOf] at ih
    exact ih h.2

/-! pairExists and tag-registration lemmas. -/

theorem pairExists_not_mem {m : List (CountryCode × List Tag)} {cc : CountryCode}
    (t : Tag) (h : cc ∉ keysOf m) : pairExists m cc t = false := by
  induction m with
  | nil => simp [pairExists]
  | cons e rest ih =>
    obtain ⟨k1, l1⟩ := e
    simp [keysOf] at h
    push_neg at h
    simp [pairExists] at ih ⊢
    constructor
    · intro x _
      simp [show k1 ≠ cc from fun hx => h.1 hx.symm]
    · intro p hp
      exact ih h.2 p hp

theorem pairExists_eq {m : List (CountryCode × List Tag)} (hnd : (keysOf m).Nodup)
    (cc : CountryCode) (t : Tag) :
    pairExists m cc t = ((lookupA cc m).getD []).any fun x => x == t := by
  induction m with
  | nil => rfl
  | cons e rest ih =>
    obtain ⟨k1, l1⟩ := e
    simp only [keysOf, List.nodup_cons] at hnd
    have hcons : pairExists ((k1, l1) :: rest) cc t =
        ((l1.any fun x => k1 == cc && x == t) || pairExists rest cc t) := rfl
    by_cases h1 : cc = k1
    · subst h1
      have hrest : pairExists rest cc t = false := pairExists_not_mem t hnd.1
      rw [hcons, hrest, Bool.or_false]
      simp only [lookupA, if_pos rfl, Option.getD_some]
      simp
    · have hk : (k1 == cc) = false := beq_eq_false_iff_ne.mpr fun hx => h1 hx.symm
      have hhead : (l1.any fun x => k1 == cc && x == t) = false := by
        simp [hk]
      rw [hcons, hhead, Bool.false_or]
      have hlook : lookupA cc ((k1, l1) :: rest) = lookupA cc rest := by
        simp [lookupA, h1]
      rw [hlook]
      exact ih hnd.2

theorem tagRegistered_eq (b : Bundle) (cc : CountryCode) (t : Tag) :
    tagRegistered b cc t = ((lookupA cc b.countryTagPair).getD []).any fun x => x == t := rfl

theorem pairExists_eq_tagRegistered {b : Bundle} (hnd : (keysOf b.countryTagPair).Nodup)
    (cc : CountryCode) (t : Tag) :
    pairExists b.countryTagPair cc t = tagRegistered b cc t :=
  pairExists_eq hnd cc t

/-! addTag and AddMessages characterization. -/

theorem addTag_messageTemplates (b : Bundle) (cc : CountryCode) (t : Tag) :
    (addTag b cc t).messageTemplates = b.messageTemplates := by
  unfold addTag
  split <;> rfl

theorem addTag_defaultLanguage (b : Bundle) (cc : CountryCode) (t : Tag) :
    (addTag b cc t).defaultLanguage = b.defaultLanguage := by
  unfold addTag
  split <;> rfl

theorem addTag_pluralRules (b : Bundle) (cc : CountryCode) (t : Tag) :
    (addTag b cc t).pluralRules = b.pluralRules := by
  unfold addTag
  split <;> rfl

theorem addTag_countryTagPair (b : Bundle) (cc : CountryCode) (t : Tag) :
    (addTag b cc t).countryTagPair =
      if pairExists b.countryTagPair cc t then b.countryTagPair
      else setA cc (LanguageTags b cc ++ [t]) b.countryTagPair := by
  unfold addTag
  by_cases hp : pairExists b.countryTagPair cc t = true
  · rw [if_pos hp, if_pos hp]
  · rw [if_neg hp, if_neg hp]
    rfl

theorem addTag_matcher (b : Bundle) (cc : CountryCode) (t : Tag) :
    (addTag b cc t).matcher =
      if pairExists b.countryTagPair cc t then b.matcher
      else some (LanguageTags b cc ++ [t]) := by
  unfold addTag
  by_cases hp : pairExists b.countryTagPair cc t = true
  · rw [if_pos hp, if_pos hp]
  · rw [if_neg hp, if_neg hp]
    rfl

theorem addMessages_error_iff (b : Bundle) (cc : CountryCode) (t : Tag)
    (ms : List Message) (e : AddError) :
    AddMessages b cc t ms = .error e ↔
      (Rules.Rule b.pluralRules t).isNone = true ∧ e = .noPluralRule t := by
  unfold AddMessages
  split
  · rename_i hc
    constructor
    · intro h
      refine ⟨hc, ?_⟩
      cases h
      rfl
    · intro h
      rw [h.2]
  · rename_i hc
    simp [hc]

/-- The new template map an AddMessages call stores under the pair's key. -/
def newTemplates (b : Bundle) (cc : CountryCode) (t : Tag) (ms : List Message) :
    List (String × MessageTemplate) :=
  ms.foldl (fun ts m => setA m.id (NewMessageTemplate m) ts)
    ((lookupA (messageTemplateKey cc t) b.messageTemplates).getD [])

theorem addMessages_ok_char {b b2 : Bundle} {cc : CountryCode} {t : Tag}
    {ms : List Message} (h : AddMessages b cc t ms = .ok b2) :
    b2.defaultLanguage = b.defaultLanguage ∧
    b2.pluralRules = b.pluralRules ∧
    b2.countryTagPair = (if registersNow b cc t then
        setA cc (LanguageTags b cc ++ [t]) b.countryTagPair
      else b.countryTagPair) ∧
    b2.matcher = (if registersNow b cc t then some (LanguageTags b cc ++ [t])
      else b.matcher) ∧
    b2.messageTemplates = setA (messageTemplateKey cc t) (newTemplates b cc t ms)
      b.messageTemplates := by
  unfold AddMessages at h
  split at h
  · simp at h
  · simp only [Except.ok.injEq] at h
    subst h
    by_cases hfresh : (lookupA (messageTemplateKey cc t) b.messageTemplates).isNone = true
    · have hbase : lookupA (messageTemplateKey cc t) b.messageTemplates = none :=
        Option.isNone_iff_eq_none.mp hfresh
      rw [if_pos hfresh]
      by_cases hpe : pairExists b.countryTagPair cc t = true
      · have hreg : registersNow b cc t = false := by
          simp [registersNow, hpe]
        have haddTag : addTag
            { b with
                messageTemplates := setA (messageTemplateKey cc t) [] b.messageTemplates }
            cc t =
            { b with
                messageTemplates := setA (messageTemplateKey cc t) [] b.messageTemplates } :=
          by
            unfold addTag
            rw [if_pos hpe]
        rw [haddTag]
        refine ⟨rfl, rfl, by simp [storeTemplates, hreg], by simp [storeTemplates, hreg], ?_⟩
        simp [storeTemplates, newTemplates, lookupA_setA_self, setA_setA, hbase]
      · have hpe2 : pairExists b.countryTagPair cc t = false := by
          revert hpe
          cases pairExists b.countryTagPair cc t <;> simp
        have hreg : registersNow b cc t = true := by
          simp [registersNow, hfresh, hpe2]
        have haddTag : addTag
            { b with
                messageTemplates := setA (messageTemplateKey cc t) [] b.messageTemplates }
            cc t =
            { b with
                messageTemplates := setA (messageTemplateKey cc t) [] b.messageTemplates,
                countryTagPair := setA cc (LanguageTags b cc ++ [t]) b.countryTagPair,
                matcher := some (LanguageTags b cc ++ [t]) } := by
          unfold addTag
          rw [if_neg hpe]
          rfl
        rw [haddTag]
        refine ⟨rfl, rfl, by simp [storeTemplates, hreg], by simp [storeTemplates, hreg], ?_⟩
        simp [storeTemplates, newTemplates, lookupA_setA_self, setA_setA, hbase]
    · have hfx : (lookupA (messageTemplateKey cc t) b.messageTemplates).isNone = false := by
        revert hfresh
        cases lookupA (messageTemplateKey cc t) b.messageTemplates <;> simp
      have hreg : registersNow b cc t = false := by
        simp [registersNow, hfx]
      rw [if_neg hfresh]
      refine ⟨rfl, rfl, by simp [storeTemplates, hreg], by simp [storeTemplates, hreg], ?_⟩
      simp [storeTemplates, newTemplates]

/-! Well-formedness preservation. -/

theorem not_mem_of_any_beq_false {l : List Tag} {t : Tag}
    (h : (l.any fun x => x == t) = false) : t ∉ l := by
  intro hm
  have htrue : (l.any fun x => x == t) = true := List.any_eq_true.mpr ⟨t, hm, by simp⟩
  rw [h] at htrue
  exact absurd htrue (by simp)

theorem nodup_keysOf_foldl_setA (ms : List Message) :
    ∀ ts : List (String × MessageTemplate), (keysOf ts).Nodup →
      (keysOf (ms.foldl (fun ts m => setA m.id (NewMessageTemplate m) ts) ts)).Nodup := by
  induction ms with
  | nil => intro ts h; simpa using h
  | cons m rest ih =>
    intro ts h
    simp only [List.foldl_cons]
    exact ih _ (nodup_keysOf_setA _ h)

theorem nodup_newTemplates {b : Bundle} (hwf : WF b) (cc : CountryCode) (t : Tag)
    (ms : List Message) : (keysOf (newTemplates b cc t ms)).Nodup := by
  apply nodup_keysOf_foldl_setA
  cases hl : lookupA (messageTemplateKey cc t) b.messageTemplates with
  | none => simp [keysOf]
  | some ts =>
    simp only [Option.getD_some]
    exact hwf.2.2.1 _ (lookupA_mem hl)

theorem nodup_LanguageTags {b : Bundle} (hwf : WF b) (cc : CountryCode) :
    (LanguageTags b cc).Nodup := by
  unfold LanguageTags
  cases hl : lookupA cc b.countryTagPair with
  | none => simp
  | some l =>
    simp only [Option.getD_some]
    exact hwf.2.2.2 _ (lookupA_mem hl)

theorem WF_addMessages {b b2 : Bundle} {cc : CountryCode} {t : Tag} {ms : List Message}
    (hwf : WF b) (h : AddMessages b cc t ms = .ok b2) : WF b2 := by
  obtain ⟨hdl, hpr, hctp, hm, hmt⟩ := addMessages_ok_char h
  obtain ⟨wf1, wf2, wf3, wf4⟩ := hwf
  refine ⟨?_, ?_, ?_, ?_⟩
  · rw [hctp]
    split
    · exact nodup_keysOf_setA _ wf1
    · exact wf1
  · rw [hmt]
    exact nodup_keysOf_setA _ wf2
  · rw [hmt]
    intro e he
    rcases mem_setA he with he | he
    · rw [he]
      exact nodup_newTemplates ⟨wf1, wf2, wf3, wf4⟩ cc t ms
    · exact wf3 e he
  · rw [hctp]
    split
    · rename_i hreg
      intro e he
      rcases mem_setA he with he | he
      · rw [he]
        have hLnd : (LanguageTags b cc).Nodup := nodup_LanguageTags ⟨wf1, wf2, wf3, wf4⟩ cc
        have hpe : pairExists b.countryTagPair cc t = false := by
          revert hreg
          unfold registersNow
          cases pairExists b.countryTagPair cc t <;> simp
        have hreg2 : tagRegistered b cc t = false := by
          rw [← pairExists_eq_tagRegistered wf1, hpe]
        have hnot : t ∉ LanguageTags b cc :=
          not_mem_of_any_beq_false
            (show ((LanguageTags b cc).any fun x => x == t) = false from hreg2)
        simp [List.nodup_append, hLnd, hnot]
      · exact wf4 e he
    · exact wf4

/-! NewBundle facts. -/

theorem NewBundle_countryTagPair (cc dl : String) :
    (NewBundle cc dl).countryTagPair = [(cc, [dl])] := rfl

theorem NewBundle_messageTemplates (cc dl : String) :
    (NewBundle cc dl).messageTemplates = [] := rfl

theorem NewBundle_pluralRules (cc dl : String) :
    (NewBundle cc dl).pluralRules = setA artTag englishRule DefaultRules := rfl

theorem NewBundle_defaultLanguage (cc dl : String) :
    (NewBundle cc dl).defaultLanguage = dl := rfl

theorem WF_NewBundle (cc dl : String) : WF (NewBundle cc dl) := by
  unfold WF
  rw [NewBundle_countryTagPair, NewBundle_messageTemplates]
  simp [keysOf]

theorem tagRegistered_NewBundle (cc0 dl cc t : String) :
    tagRegistered (NewBundle cc0 dl) cc t = true ↔ (cc = cc0 ∧ t = dl) := by
  by_cases hc : cc = cc0
  · subst hc
    have h1 : LanguageTags (NewBundle cc dl) cc = [dl] := by
      unfold LanguageTags
      rw [NewBundle_countryTagPair]
      simp [lookupA]
    unfold tagRegistered
    rw [h1]
    simp only [List.any_cons, List.any_nil, Bool.or_false, beq_iff_eq]
    constructor
    · intro h
      exact ⟨trivial, h.symm⟩
    · intro h
      exact h.2.symm
  · have h1 : LanguageTags (NewBundle cc0 dl) cc = [] := by
      unfold LanguageTags
      rw [NewBundle_countryTagPair]
      simp [lookupA, hc]
    unfold tagRegistered
    rw [h1]
    simp [hc]

/-! Effect of one AddMessages call on registration, and the trace induction. -/

theorem opPairs_cons (cc1 t1 : String) (ms : List Message) (rest : List Op) :
    opPairs (.add cc1 t1 ms :: rest) = (cc1, t1) :: opPairs rest := rfl

theorem tagRegistered_step {b b2 : Bundle} {cc1 t1 : String} {ms : List Message}
    (hwf : WF b)
    (hocc : (lookupA (messageTemplateKey cc1 t1) b.messageTemplates).isSome = true →
      tagRegistered b cc1 t1 = true)
    (h : AddMessages b cc1 t1 ms = .ok b2) (cc t : String) :
    tagRegistered b2 cc t = (tagRegistered b cc t || (cc1 == cc && t1 == t)) := by
  obtain ⟨_, _, hctp, _, _⟩ := addMessages_ok_char h
  by_cases hreg : registersNow b cc1 t1 = true
  · rw [if_pos hreg] at hctp
    by_cases hcc : cc = cc1
    · subst hcc
      rw [tagRegistered_eq b2, hctp, lookupA_setA_self, tagRegistered_eq b]
      simp [List.any_append]
      rfl
    · have hlook : lookupA cc (setA cc1 (LanguageTags b cc1 ++ [t1]) b.countryTagPair) =
          lookupA cc b.countryTagPair := lookupA_setA_ne hcc _ _
      rw [tagRegistered_eq b2, hctp, hlook, ← tagRegistered_eq b]
      have hb : (cc1 == cc) = false := beq_eq_false_iff_ne.mpr fun hx => hcc hx.symm
      rw [hb]
      simp
  · rw [if_neg hreg] at hctp
    have hsame : tagRegistered b2 cc t = tagRegistered b cc t := by
      rw [tagRegistered_eq b2, hctp, ← tagRegistered_eq b]
    rw [hsame]
    by_cases hp : (cc1 == cc && t1 == t) = true
    · rw [Bool.and_eq_true] at hp
      have hcc : cc1 = cc := eq_of_beq hp.1
      have ht : t1 = t := eq_of_beq hp.2
      subst hcc
      subst ht
      have hreg2 : registersNow b cc1 t1 = false := by
        revert hreg
        cases registersNow b cc1 t1 <;> simp
      have hregold : tagRegistered b cc1 t1 = true := by
        cases hno : (lookupA (messageTemplateKey cc1 t1) b.messageTemplates).isNone with
        | false =>
          have hsome : (lookupA (messageTemplateKey cc1 t1) b.messageTemplates).isSome = true := by
            cases hl : lookupA (messageTemplateKey cc1 t1) b.messageTemplates
            · simp [hl] at hno
            · simp
          exact hocc hsome
        | true =>
          unfold registersNow at hreg2
          rw [hno, Bool.true_and] at hreg2
          have hpe : pairExists b.countryTagPair cc1 t1 = true := by
            revert hreg2
            cases pairExists b.countryTagPair cc1 t1 <;> simp
          rw [← pairExists_eq_tagRegistered hwf.1]
          exact hpe
      rw [hregold]
      simp
    · have hp2 : (cc1 == cc && t1 == t) = false := by
        revert hp
        cases (cc1 == cc && t1 == t) <;> simp
      rw [hp2, Bool.or_false]

theorem PairsOK_step {b b2 : Bundle} {cc1 t1 : String} {ms : List Message}
    {ps : List (CountryCode × Tag)} (hwf : WF b) (hinj : keyInj ps)
    (hmem : (cc1, t1) ∈ ps) (hok : PairsOK b ps)
    (h : AddMessages b cc1 t1 ms = .ok b2) : PairsOK b2 ps := by
  obtain ⟨_, _, _, _, hmt⟩ := addMessages_ok_char h
  have hstep := tagRegistered_step hwf (hok _ hmem) h
  intro p hp hocc2
  rw [hmt] at hocc2
  by_cases hk : messageTemplateKey p.1 p.2 = messageTemplateKey cc1 t1
  · have hpeq : p = (cc1, t1) := hinj p hp (cc1, t1) hmem hk
    rw [hpeq]
    rw [hstep cc1 t1]
    simp
  · rw [lookupA_setA_ne hk _ _] at hocc2
    have hold := hok p hp hocc2
    rw [hstep p.1 p.2, hold]
    simp

theorem tagRegistered_runOps (ops : List Op) :
    ∀ (b : Bundle) (ps : List (CountryCode × Tag)),
      WF b → keyInj ps → (∀ p ∈ opPairs ops, p ∈ ps) → PairsOK b ps →
      ∀ cc t, tagRegistered (runOps b ops) cc t =
        (tagRegistered b cc t || okCallFor b ops cc t) := by
  induction ops with
  | nil =>
    intro b ps _ _ _ _ cc t
    simp [runOps, okCallFor]
  | cons op rest ih =>
    intro b ps hwf hinj hsub hok cc t
    obtain ⟨cc1, t1, ms⟩ := op
    have hrun : runOps b (.add cc1 t1 ms :: rest) =
        runOps (applyOp b (.add cc1 t1 ms)) rest := by
      simp [runOps]
    cases hA : AddMessages b cc1 t1 ms with
    | error e =>
      have happ : applyOp b (.add cc1 t1 ms) = b := by simp [applyOp, hA]
      have hcall : okCallFor b (.add cc1 t1 ms :: rest) cc t = okCallFor b rest cc t := by
        simp [okCallFor, hA]
      rw [hrun, happ, hcall]
      exact ih b ps hwf hinj
        (fun p hp => hsub p (by rw [opPairs_cons]; exact List.mem_cons_of_mem _ hp))
        hok cc t
    | ok b2 =>
      have happ : applyOp b (.add cc1 t1 ms) = b2 := by simp [applyOp, hA]
      have hmem : (cc1, t1) ∈ ps := by
        apply hsub
        rw [opPairs_cons]
        exact List.mem_cons_self _ _
      have hwf2 := WF_addMessages hwf hA
      have hok2 := PairsOK_step hwf hinj hmem hok hA
      have hstep := tagRegistered_step hwf (hok _ hmem) hA
      have hih := ih b2 ps hwf2 hinj
        (fun p hp => hsub p (by rw [opPairs_cons]; exact List.mem_cons_of_mem _ hp))
        hok2 cc t
      have hcall : okCallFor b (.add cc1 t1 ms :: rest) cc t =
          ((cc1 == cc && t1 == t) || okCallFor b2 rest cc t) := by
        simp [okCallFor, hA]
      rw [hrun, happ, hih, hstep, hcall, Bool.or_assoc]

theorem WF_applyOp {b : Bundle} (hwf : WF b) (op : Op) : WF (applyOp b op) := by
  obtain ⟨cc, t, ms⟩ := op
  cases hA : AddMessages b cc t ms with
  | ok b2 => simpa [applyOp, hA] using WF_addMessages hwf hA
  | error e => simpa [applyOp, hA] using hwf

theorem WF_runOps {b : Bundle} (hwf : WF b) (ops : List Op) : WF (runOps b ops) := by
  induction ops generalizing b with
  | nil => simpa [runOps] using hwf
  | cons op rest ih =>
    have hstep : runOps b (op :: rest) = runOps (applyOp b op) rest := by simp [runOps]
    rw [hstep]
    exact ih (WF_applyOp hwf op)

/-! Claim theorems. -/

/-- C1 (code-bug evaluation): the Bundle keeps a single matcher that addTag
overwrites with only the tag list of the country just touched. After NewBundle
registers "en" for country "a" and AddMessages registers "tr" for country "b", the
stored matcher's search space is exactly country "b"'s list ["tr"], even though
country "a" has registered list ["en"]: matching for "a" through the Bundle's
matcher searches a tag registered under a different country code and not "a"'s own
tag, contradicting the per-country scoping the spec claims. -/
theorem c1_single_matcher_cross_country :
    (runOps (NewBundle "a" "en") [.add "b" "tr" [msgHello]]).matcher = some ["tr"] ∧
    LanguageTags (runOps (NewBundle "a" "en") [.add "b" "tr" [msgHello]]) "a" = ["en"] ∧
    LanguageTags (runOps (NewBundle "a" "en") [.add "b" "tr" [msgHello]]) "b" = ["tr"] := by
  decide

/-- C2 counterexample: a pair can be registered with no message ever added. The
freshly constructed bundle already registers ("tr", "en") although its template
store is empty and no add-messages call was made, and a successful AddMessages
call with an empty message list registers ("gb", "tr") without adding a message. -/
theorem c2_counterexample :
    tagRegistered (NewBundle "tr" "en") "tr" "en" = true ∧
    messageAddedFor (NewBundle "tr" "en") [] "tr" "en" = false ∧
    (NewBundle "tr" "en").messageTemplates = [] ∧
    tagRegistered (runOps (NewBundle "tr" "en") [.add "gb" "tr" []]) "gb" "tr" = true ∧
    messageAddedFor (NewBundle "tr" "en") [.add "gb" "tr" []] "gb" "tr" = false := by
  decide

/-- C2 (amended): in every reachable Bundle state whose (countryCode, tag) pairs
have pairwise distinct template keys, a pair is registered in countryTagPair iff
it is the (countryCode, defaultLanguage) pair seeded by NewBundle or some
successful AddMessages call (possibly with an empty message list) was made for
that pair. -/
theorem c2_registered_iff (cc0 dl : String) (ops : List Op) (cc t : String)
    (hinj : keyInj ((cc0, dl) :: opPairs ops)) :
    tagRegistered (runOps (NewBundle cc0 dl) ops) cc t = true ↔
      ((cc = cc0 ∧ t = dl) ∨ okCallFor (NewBundle cc0 dl) ops cc t = true) := by
  have hP : PairsOK (NewBundle cc0 dl) ((cc0, dl) :: opPairs ops) := by
    intro p hp hocc
    rw [NewBundle_messageTemplates] at hocc
    simp [lookupA] at hocc
  have hmain := tagRegistered_runOps ops (NewBundle cc0 dl) ((cc0, dl) :: opPairs ops)
    (WF_NewBundle cc0 dl) hinj (fun p hp => List.mem_cons_of_mem _ hp) hP cc t
  rw [hmain, Bool.or_eq_true, tagRegistered_NewBundle]

/-- C2 witness: the amended equivalence applied to one concrete trace. -/
theorem c2_witness :
    tagRegistered (runOps (NewBundle "tr" "en") [.add "gb" "tr" [msgHello]]) "gb" "tr" = true ↔
      (("gb" = "tr" ∧ "tr" = "en") ∨
        okCallFor (NewBundle "tr" "en") [.add "gb" "tr" [msgHello]] "gb" "tr" = true) :=
  c2_registered_iff "tr" "en" [.add "gb" "tr" [msgHello]] "gb" "tr" (by decide)

/-- C4: if no plural rule is registered for the tag, AddMessages returns the
no-plural-rule error and the bundle is left entirely unchanged; and whenever
AddMessages returns an error it is that error, the rule lookup was indeed empty,
and no partial write has occurred. -/
theorem c4_no_plural_rule_atomic (b : Bundle) (cc : String) (tag : Tag)
    (ms : List Message) :
    (Rules.Rule b.pluralRules tag = none →
      AddMessages b cc tag ms = .error (.noPluralRule tag) ∧
      applyOp b (.add cc tag ms) = b) ∧
    ∀ e, AddMessages b cc tag ms = .error e →
      e = .noPluralRule tag ∧ Rules.Rule b.pluralRules tag = none ∧
      applyOp b (.add cc tag ms) = b := by
  constructor
  · intro hr
    have herr : AddMessages b cc tag ms = .error (.noPluralRule tag) := by
      unfold AddMessages
      simp [hr]
    exact ⟨herr, by simp [applyOp, herr]⟩
  · intro e he
    have hch := (addMessages_error_iff b cc tag ms e).mp he
    exact ⟨hch.2, Option.isNone_iff_eq_none.mp hch.1, by simp [applyOp, he]⟩

/-- C4 witness: the tag "zz" has no plural rule; AddMessages rejects it and the
bundle state is untouched. -/
theorem c4_witness :
    Rules.Rule (NewBundle "tr" "en").pluralRules "zz" = none ∧
    AddMessages (NewBundle "tr" "en") "tr" "zz" [] = .error (.noPluralRule "zz") ∧
    applyOp (NewBundle "tr" "en") (.add "tr" "zz" []) = NewBundle "tr" "en" :=
  ⟨by rfl,
   ((c4_no_plural_rule_atomic (NewBundle "tr" "en") "tr" "zz" []).1 (by rfl)).1,
   ((c4_no_plural_rule_atomic (NewBundle "tr" "en") "tr" "zz" []).1 (by rfl)).2⟩

/-- C6 (code-bug evaluation): the template key is the plain concatenation
countryCode ++ "-" ++ tag, so the distinct pairs ("a", "en-x-foo") and
("a-en", "x-foo") — both expressible with real canonical language tags, since
"en-x-foo" and "x-foo" are valid BCP 47 private-use forms — share the key
"a-en-x-foo". After adding a message only for ("a", "en-x-foo"), a lookup for the
never-populated pair ("a-en", "x-foo") returns that template instead of absent. -/
theorem c6_lookup_key_collision :
    getMessageTemplate (runOps (NewBundle "z" "en") [.add "a" "en-x-foo" [msgHello]])
      "x-foo" "hello" "a-en" = some (NewMessageTemplate msgHello) ∧
    messageAddedFor (NewBundle "z" "en") [.add "a" "en-x-foo" [msgHello]]
      "a-en" "x-foo" = false ∧
    tagRegistered (runOps (NewBundle "z" "en") [.add "a" "en-x-foo" [msgHello]])
      "a-en" "x-foo" = false := by
  decide

/-- C9: NewBundle seeds the default plural-rule table and aliases the synthetic
"art" tag to the very rule found for English, so after construction the rule
lookup for "art" succeeds and equals the English rule; all other entries of the
default table are untouched. -/
theorem c9_art_aliases_english (cc dl : String) :
    Rules.Rule (NewBundle cc dl).pluralRules artTag = some englishRule ∧
    Rules.Rule DefaultRules "en" = some englishRule ∧
    ∀ t, t ≠ artTag → lookupA t (NewBundle cc dl).pluralRules = lookupA t DefaultRules := by
  refine ⟨?_, rfl, ?_⟩
  · rw [NewBundle_pluralRules]
    unfold Rules.Rule
    rw [lookupA_setA_self]
  · intro t ht
    rw [NewBundle_pluralRules]
    exact lookupA_setA_ne ht _ _

/-- C9 witness: the aliasing at a concrete bundle, and one untouched entry. -/
theorem c9_witness :
    Rules.Rule (NewBundle "tr" "en").pluralRules artTag = some englishRule ∧
    lookupA "en" (NewBundle "tr" "en").pluralRules = lookupA "en" DefaultRules :=
  ⟨(c9_art_aliases_english "tr" "en").1,
   (c9_art_aliases_english "tr" "en").2.2 "en" (by decide)⟩

/-- C5: adding the same (countryCode, tag, ID) twice replaces the stored template
with the one from the last add; re-adding an identical Message leaves the stored
template unchanged; and the pair's template map keeps no duplicate IDs. -/
theorem c5_last_write_wins (b : Bundle) (cc : String) (tag : Tag) (m1 m2 : Message)
    (b1 b2 : Bundle) (hwf : WF b) (hid : m1.id = m2.id)
    (h1 : AddMessages b cc tag [m1] = .ok b1)
    (h2 : AddMessages b1 cc tag [m2] = .ok b2) :
    getMessageTemplate b2 tag m2.id cc = some (NewMessageTemplate m2) ∧
    (m1 = m2 → getMessageTemplate b2 tag m2.id cc = getMessageTemplate b1 tag m2.id cc) ∧
    (keysOf ((lookupA (messageTemplateKey cc tag) b2.messageTemplates).getD [])).Nodup := by
  obtain ⟨_, _, _, _, hmt1⟩ := addMessages_ok_char h1
  obtain ⟨_, _, _, _, hmt2⟩ := addMessages_ok_char h2
  have hbase1 : lookupA (messageTemplateKey cc tag) b1.messageTemplates =
      some (newTemplates b cc tag [m1]) := by
    rw [hmt1]
    exact lookupA_setA_self _ _ _
  have hnew2 : newTemplates b1 cc tag [m2] =
      setA m2.id (NewMessageTemplate m2) (newTemplates b cc tag [m1]) := by
    unfold newTemplates
    rw [hbase1]
    rfl
  have hget2 : getMessageTemplate b2 tag m2.id cc = some (NewMessageTemplate m2) := by
    unfold getMessageTemplate
    rw [hmt2, lookupA_setA_self]
    show lookupA m2.id (newTemplates b1 cc tag [m2]) = some (NewMessageTemplate m2)
    rw [hnew2]
    exact lookupA_setA_self _ _ _
  refine ⟨hget2, ?_, ?_⟩
  · intro hm
    subst hm
    rw [hget2]
    have hb1get : getMessageTemplate b1 tag m1.id cc = some (NewMessageTemplate m1) := by
      unfold getMessageTemplate
      rw [hbase1]
      show lookupA m1.id (setA m1.id (NewMessageTemplate m1)
        ((lookupA (messageTemplateKey cc tag) b.messageTemplates).getD [])) = _
      exact lookupA_setA_self _ _ _
    exact hb1get.symm
  · rw [hmt2, lookupA_setA_self]
    show (keysOf (newTemplates b1 cc tag [m2])).Nodup
    exact nodup_newTemplates (WF_addMessages hwf h1) cc tag [m2]

/-- C5 witness: two adds for the same ID at a concrete bundle; the stored template
is the one from the second add and the map keys stay duplicate-free. -/
theorem c5_witness :
    getMessageTemplate
        (applyOp (applyOp (NewBundle "tr" "en") (.add "tr" "en" [msgHello]))
          (.add "tr" "en" [msgHello2]))
        "en" msgHello2.id "tr" = some (NewMessageTemplate msgHello2) ∧
    (msgHello = msgHello2 →
      getMessageTemplate
          (applyOp (applyOp (NewBundle "tr" "en") (.add "tr" "en" [msgHello]))
            (.add "tr" "en" [msgHello2]))
          "en" msgHello2.id "tr" =
        getMessageTemplate (applyOp (NewBundle "tr" "en") (.add "tr" "en" [msgHello]))
          "en" msgHello2.id "tr") ∧
    (keysOf ((lookupA (messageTemplateKey "tr" "en")
        (applyOp (applyOp (NewBundle "tr" "en") (.add "tr" "en" [msgHello]))
          (.add "tr" "en" [msgHello2])).messageTemplates).getD [])).Nodup :=
  c5_last_write_wins (NewBundle "tr" "en") "tr" "en" msgHello msgHello2
    (applyOp (NewBundle "tr" "en") (.add "tr" "en" [msgHello]))
    (applyOp (applyOp (NewBundle "tr" "en") (.add "tr" "en" [msgHello]))
      (.add "tr" "en" [msgHello2]))
    (by decide) (by rfl) (by rfl) (by rfl)

/-- C7 counterexample: the very first message add for the construction-seeded pair
("c", "en") succeeds but rebuilds nothing. After a tag of country "d" clobbers the
matcher to ["tr"], adding the first message for ("c", "en") leaves the matcher at
["tr"] — not country "c"'s list ["en"] — because addTag returns before the rebuild
when the pair is already registered. So "rebuilds the matcher iff this is the
first message added for that pair" fails as stated. -/
theorem c7_counterexample :
    messageAddedFor (NewBundle "c" "en") [.add "d" "tr" [msgHello]] "c" "en" = false ∧
    messageAddedFor (NewBundle "c" "en")
      [.add "d" "tr" [msgHello], .add "c" "en" [msgHello]] "c" "en" = true ∧
    (applyOp (applyOp (NewBundle "c" "en") (.add "d" "tr" [msgHello]))
        (.add "c" "en" [msgHello])).matcher =
      (applyOp (NewBundle "c" "en") (.add "d" "tr" [msgHello])).matcher ∧
    (applyOp (applyOp (NewBundle "c" "en") (.add "d" "tr" [msgHello]))
        (.add "c" "en" [msgHello])).matcher = some ["tr"] ∧
    LanguageTags (applyOp (applyOp (NewBundle "c" "en") (.add "d" "tr" [msgHello]))
      (.add "c" "en" [msgHello])) "c" = ["en"] := by
  decide

/-- C7 (amended): a successful AddMessages appends the pair to the country's
registered list and rebuilds the matcher (from that country's extended tag list)
iff the pair's template key is fresh and the pair is not already registered;
otherwise — in particular whenever the pair's key is already populated — both
countryTagPair and the matcher are left unchanged. -/
theorem c7_register_rebuild_iff (b : Bundle) (cc : String) (tag : Tag)
    (ms : List Message) (b2 : Bundle) (h : AddMessages b cc tag ms = .ok b2) :
    b2.countryTagPair = (if registersNow b cc tag then
        setA cc (LanguageTags b cc ++ [tag]) b.countryTagPair
      else b.countryTagPair) ∧
    b2.matcher = (if registersNow b cc tag then some (LanguageTags b cc ++ [tag])
      else b.matcher) ∧
    ((lookupA (messageTemplateKey cc tag) b.messageTemplates).isSome = true →
      b2.countryTagPair = b.countryTagPair ∧ b2.matcher = b.matcher) := by
  obtain ⟨_, _, hctp, hm, _⟩ := addMessages_ok_char h
  refine ⟨hctp, hm, ?_⟩
  intro hocc
  have hreg : registersNow b cc tag = false := by
    unfold registersNow
    cases hl : lookupA (messageTemplateKey cc tag) b.messageTemplates
    · rw [hl] at hocc
      exact absurd hocc (by simp)
    · simp
  constructor
  · rw [hctp, hreg]
    simp
  · rw [hm, hreg]
    simp

/-- C7 witness: the amended characterization at a concrete fresh add. -/
theorem c7_witness :
    (applyOp (NewBundle "c" "en") (.add "d" "tr" [msgHello])).countryTagPair =
      (if registersNow (NewBundle "c" "en") "d" "tr" then
        setA "d" (LanguageTags (NewBundle "c" "en") "d" ++ ["tr"])
          (NewBundle "c" "en").countryTagPair
      else (NewBundle "c" "en").countryTagPair) ∧
    (applyOp (NewBundle "c" "en") (.add "d" "tr" [msgHello])).matcher =
      (if registersNow (NewBundle "c" "en") "d" "tr" then
        some (LanguageTags (NewBundle "c" "en") "d" ++ ["tr"])
      else (NewBundle "c" "en").matcher) ∧
    ((lookupA (messageTemplateKey "d" "tr")
        (NewBundle "c" "en").messageTemplates).isSome = true →
      (applyOp (NewBundle "c" "en") (.add "d" "tr" [msgHello])).countryTagPair =
        (NewBundle "c" "en").countryTagPair ∧
      (applyOp (NewBundle "c" "en") (.add "d" "tr" [msgHello])).matcher =
        (NewBundle "c" "en").matcher) :=
  c7_register_rebuild_iff (NewBundle "c" "en") "d" "tr" [msgHello]
    (applyOp (NewBundle "c" "en") (.add "d" "tr" [msgHello])) (by rfl)

/-- C8: for every reachable bundle, a country's registered tag list has no
duplicates, and every operation either leaves the list unchanged or appends one
previously unregistered tag at its end — so the list holds the tags in the order
their pairs were first registered. -/
theorem c8_tags_nodup_insertion_order (cc0 dl : String) (ops : List Op) (cc : String) :
    (LanguageTags (runOps (NewBundle cc0 dl) ops) cc).Nodup ∧
    ∀ cc1 t1 ms,
      LanguageTags (applyOp (runOps (NewBundle cc0 dl) ops) (.add cc1 t1 ms)) cc =
          LanguageTags (runOps (NewBundle cc0 dl) ops) cc ∨
        (tagRegistered (runOps (NewBundle cc0 dl) ops) cc t1 = false ∧
          LanguageTags (applyOp (runOps (NewBundle cc0 dl) ops) (.add cc1 t1 ms)) cc =
            LanguageTags (runOps (NewBundle cc0 dl) ops) cc ++ [t1]) := by
  have hwf := WF_runOps (WF_NewBundle cc0 dl) ops
  refine ⟨nodup_LanguageTags hwf cc, ?_⟩
  intro cc1 t1 ms
  cases hA : AddMessages (runOps (NewBundle cc0 dl) ops) cc1 t1 ms with
  | error e =>
    left
    simp [applyOp, hA]
  | ok b2 =>
    have happ : applyOp (runOps (NewBundle cc0 dl) ops) (.add cc1 t1 ms) = b2 := by
      simp [applyOp, hA]
    rw [happ]
    obtain ⟨_, _, hctp, _, _⟩ := addMessages_ok_char hA
    by_cases hreg : registersNow (runOps (NewBundle cc0 dl) ops) cc1 t1 = true
    · rw [if_pos hreg] at hctp
      by_cases hcc : cc = cc1
      · subst hcc
        right
        constructor
        · have hpe : pairExists (runOps (NewBundle cc0 dl) ops).countryTagPair cc t1 = false := by
            revert hreg
            unfold registersNow
            cases pairExists (runOps (NewBundle cc0 dl) ops).countryTagPair cc t1 <;> simp
          rw [← pairExists_eq_tagRegistered hwf.1]
          exact hpe
        · unfold LanguageTags
          rw [hctp, lookupA_setA_self]
          rfl
      · left
        unfold LanguageTags
        rw [hctp, lookupA_setA_ne hcc _ _]
    · rw [if_neg hreg] at hctp
      left
      unfold LanguageTags
      rw [hctp]

/-- C10 counterexample: for an already-populated pair, an empty-list AddMessages
succeeds but does not leave an empty template map and lookups do not return
absent — the earlier template for ("c", "en") survives — so the claim fails for
arbitrary bundle states. -/
theorem c10_counterexample :
    okCallFor (applyOp (NewBundle "c" "en") (.add "c" "en" [msgHello]))
      [.add "c" "en" []] "c" "en" = true ∧
    getMessageTemplate (applyOp (applyOp (NewBundle "c" "en") (.add "c" "en" [msgHello]))
      (.add "c" "en" [])) "en" "hello" "c" = some (NewMessageTemplate msgHello) ∧
    lookupA (messageTemplateKey "c" "en")
      (applyOp (applyOp (NewBundle "c" "en") (.add "c" "en" [msgHello]))
        (.add "c" "en" [])).messageTemplates ≠ some [] := by
  decide

/-- C10 (amended): for a pair whose template key is still fresh and whose tag has a
plural rule, AddMessages with an empty message list succeeds, stores an empty
template map for the pair, every message-ID lookup under the pair then returns
absent, and the tag is registered for the country's matcher construction. -/
theorem c10_empty_add_fresh (b : Bundle) (cc : String) (tag : Tag) (hwf : WF b)
    (hrule : (Rules.Rule b.pluralRules tag).isNone = false)
    (hfresh : lookupA (messageTemplateKey cc tag) b.messageTemplates = none) :
    ∃ b2, AddMessages b cc tag [] = .ok b2 ∧
      lookupA (messageTemplateKey cc tag) b2.messageTemplates = some [] ∧
      (∀ id, getMessageTemplate b2 tag id cc = none) ∧
      tagRegistered b2 cc tag = true := by
  cases hA : AddMessages b cc tag [] with
  | error e =>
    obtain ⟨h1, _⟩ := (addMessages_error_iff b cc tag [] e).mp hA
    rw [hrule] at h1
    exact absurd h1 (by simp)
  | ok b2 =>
    obtain ⟨_, _, hctp, _, hmt⟩ := addMessages_ok_char hA
    have hempty : newTemplates b cc tag [] = [] := by
      unfold newTemplates
      rw [hfresh]
      rfl
    refine ⟨b2, rfl, ?_, ?_, ?_⟩
    · rw [hmt, hempty]
      exact lookupA_setA_self _ _ _
    · intro id
      unfold getMessageTemplate
      rw [hmt, lookupA_setA_self]
      show lookupA id (newTemplates b cc tag []) = none
      rw [hempty]
      rfl
    · have hno : (lookupA (messageTemplateKey cc tag) b.messageTemplates).isNone = true := by
        rw [hfresh]
        rfl
      by_cases hpe : pairExists b.countryTagPair cc tag = true
      · have hreg : registersNow b cc tag = false := by
          unfold registersNow
          rw [hpe]
          simp
        rw [tagRegistered_eq, hctp, hreg]
        simp only [Bool.false_eq_true, if_false]
        rw [← tagRegistered_eq, ← pairExists_eq_tagRegistered hwf.1]
        exact hpe
      · have hpe2 : pairExists b.countryTagPair cc tag = false := by
          revert hpe
          cases pairExists b.countryTagPair cc tag <;> simp
        have hreg : registersNow b cc tag = true := by
          unfold registersNow
          rw [hno, hpe2]
          rfl
        rw [tagRegistered_eq, hctp, if_pos hreg, lookupA_setA_self]
        simp

/-- C10 witness: an empty-list add for the fresh pair ("d", "tr"). -/
theorem c10_witness :
    ∃ b2, AddMessages (NewBundle "c" "en") "d" "tr" [] = .ok b2 ∧
      lookupA (messageTemplateKey "d" "tr") b2.messageTemplates = some [] ∧
      (∀ id, getMessageTemplate b2 "tr" id "d" = none) ∧
      tagRegistered b2 "d" "tr" = true :=
  c10_empty_add_fresh (NewBundle "c" "en") "d" "tr" (by decide) (by rfl) (by rfl)

/-! Order (in)dependence of matching. -/

theorem string_append_left_cancel {s t u : String} (h : s ++ t = s ++ u) : t = u := by
  have h2 : (s ++ t).data = (s ++ u).data := by rw [h]
  rw [String.data_append, String.data_append] at h2
  exact String.ext (List.append_cancel_left h2)

theorem messageTemplateKey_tag_inj {cc : String} {t1 t2 : Tag}
    (h : messageTemplateKey cc t1 = messageTemplateKey cc t2) : t1 = t2 := by
  unfold messageTemplateKey at h
  exact string_append_left_cancel h

theorem any_pair_swap (L : List Tag) (a b : Tag) (p : Tag → Bool) :
    (L ++ [a, b]).any p = (L ++ [b, a]).any p := by
  simp only [List.any_append, List.any_cons, List.any_nil, Bool.or_false]
  rw [Bool.or_comm (p a) (p b)]

theorem find?_swap_of_not_both {L : List Tag} {a b : Tag} {pred : Tag → Bool}
    (h : ¬(pred a = true ∧ pred b = true)) :
    (L ++ [a, b]).find? pred = (L ++ [b, a]).find? pred := by
  rw [List.find?_append, List.find?_append]
  have h2 : [a, b].find? pred = [b, a].find? pred := by
    cases hpa : pred a <;> cases hpb : pred b
    · simp [List.find?_cons, hpa, hpb]
    · simp [List.find?_cons, hpa, hpb]
    · simp [List.find?_cons, hpa, hpb]
    · exact absurd ⟨hpa, hpb⟩ h
  rw [h2]

theorem matchTag_swap (L : List Tag) {a b : Tag} (prefs : List Tag) (d : Tag)
    (hab : baseLang a ≠ baseLang b) :
    matchTag (L ++ [a, b]) prefs d = matchTag (L ++ [b, a]) prefs d := by
  unfold matchTag
  have hexact : (fun p => (L ++ [a, b]).any fun r => r == p) =
      fun p => (L ++ [b, a]).any fun r => r == p := by
    funext p
    exact any_pair_swap L a b _
  have hbase : (fun p => (L ++ [a, b]).find? fun r => baseLang r == baseLang p) =
      fun p => (L ++ [b, a]).find? fun r => baseLang r == baseLang p := by
    funext p
    apply find?_swap_of_not_both
    intro hboth
    exact hab ((eq_of_beq hboth.1).trans (eq_of_beq hboth.2).symm)
  have hdef : ((L ++ [a, b]).any fun r => r == d) = (L ++ [b, a]).any fun r => r == d :=
    any_pair_swap L a b _
  rw [hexact, hbase, hdef]

theorem LanguageTags_addMessages {b b2 : Bundle} {cc : String} {T : Tag}
    {ms : List Message} (h : AddMessages b cc T ms = .ok b2) :
    LanguageTags b2 cc = (if registersNow b cc T then LanguageTags b cc ++ [T]
      else LanguageTags b cc) := by
  obtain ⟨_, _, hctp, _, _⟩ := addMessages_ok_char h
  by_cases hreg : registersNow b cc T = true
  · rw [if_pos hreg] at hctp ⊢
    unfold LanguageTags
    rw [hctp, lookupA_setA_self]
    rfl
  · rw [if_neg hreg] at hctp ⊢
    unfold LanguageTags
    rw [hctp]

theorem registersNow_after_add {b b2 : Bundle} {cc : String} {T1 T2 : Tag}
    {ms : List Message} (hwf : WF b) (hne : T1 ≠ T2)
    (h : AddMessages b cc T1 ms = .ok b2) :
    registersNow b2 cc T2 = registersNow b cc T2 := by
  obtain ⟨_, _, hctp, _, hmt⟩ := addMessages_ok_char h
  have hkey : messageTemplateKey cc T2 ≠ messageTemplateKey cc T1 := fun hx =>
    hne (messageTemplateKey_tag_inj hx).symm
  have h1 : lookupA (messageTemplateKey cc T2) b2.messageTemplates =
      lookupA (messageTemplateKey cc T2) b.messageTemplates := by
    rw [hmt]
    exact lookupA_setA_ne hkey _ _
  have h2 : pairExists b2.countryTagPair cc T2 = pairExists b.countryTagPair cc T2 := by
    by_cases hreg : registersNow b cc T1 = true
    · rw [if_pos hreg] at hctp
      have hnd2 : (keysOf b2.countryTagPair).Nodup := by
        rw [hctp]
        exact nodup_keysOf_setA _ hwf.1
      have hTne : (T1 == T2) = false := beq_eq_false_iff_ne.mpr hne
      rw [pairExists_eq hnd2, pairExists_eq hwf.1, hctp, lookupA_setA_self]
      simp only [Option.getD_some, List.any_append, List.any_cons, List.any_nil,
        Bool.or_false, hTne]
      rfl
    · rw [if_neg hreg] at hctp
      rw [hctp]
  unfold registersNow
  rw [h1, h2]

/-- C3 counterexample: with the spec-modelled matcher, registering "en-US" then
"en-GB" (same base language) under one country and asking for preference "en"
yields "en-US", while registering them in the opposite order yields "en-GB": the
match result depends on registration order, so the claim fails for tags sharing a
base language. -/
theorem c3_counterexample :
    matchForCountry (runOps (NewBundle "c" "tr") [.add "c" "en-US" [], .add "c" "en-GB" []])
        "c" ["en"] = some "en-US" ∧
    matchForCountry (runOps (NewBundle "c" "tr") [.add "c" "en-GB" [], .add "c" "en-US" []])
        "c" ["en"] = some "en-GB" := by
  decide

/-- C3 (amended): matching is order-independent for tags with distinct base
languages: for every bundle, country code and preference list, successfully
registering T1 then T2 yields the same spec-modelled match result as registering
T2 then T1, provided baseLang T1 and baseLang T2 differ. -/
theorem c3_order_independent (b : Bundle) (cc : String) (T1 T2 : Tag)
    (ms1 ms2 ms1' ms2' : List Message) (prefs : List Tag)
    (b1 b2 b1' b2' : Bundle) (hwf : WF b)
    (hbase : baseLang T1 ≠ baseLang T2)
    (h1 : AddMessages b cc T1 ms1 = .ok b1)
    (h2 : AddMessages b1 cc T2 ms2 = .ok b2)
    (h3 : AddMessages b cc T2 ms2' = .ok b1')
    (h4 : AddMessages b1' cc T1 ms1' = .ok b2') :
    matchForCountry b2 cc prefs = matchForCountry b2' cc prefs := by
  have hne : T1 ≠ T2 := fun hx => hbase (by rw [hx])
  have hd1 : b1.defaultLanguage = b.defaultLanguage := (addMessages_ok_char h1).1
  have hd2 : b2.defaultLanguage = b1.defaultLanguage := (addMessages_ok_char h2).1
  have hd3 : b1'.defaultLanguage = b.defaultLanguage := (addMessages_ok_char h3).1
  have hd4 : b2'.defaultLanguage = b1'.defaultLanguage := (addMessages_ok_char h4).1
  have hL1 := LanguageTags_addMessages h1
  have hL2 := LanguageTags_addMessages h2
  have hL3 := LanguageTags_addMessages h3
  have hL4 := LanguageTags_addMessages h4
  have hr2 : registersNow b1 cc T2 = registersNow b cc T2 :=
    registersNow_after_add hwf hne h1
  have hr1 : registersNow b1' cc T1 = registersNow b cc T1 :=
    registersNow_after_add hwf (fun hx => hne hx.symm) h3
  unfold matchForCountry
  rw [hd2, hd1, hd4, hd3]
  by_cases r1 : registersNow b cc T1 = true
  · by_cases r2 : registersNow b cc T2 = true
    · have e1 : LanguageTags b2 cc = (LanguageTags b cc ++ [T1]) ++ [T2] := by
        rw [hL2, hr2, if_pos r2, hL1, if_pos r1]
      have e2 : LanguageTags b2' cc = (LanguageTags b cc ++ [T2]) ++ [T1] := by
        rw [hL4, hr1, if_pos r1, hL3, if_pos r2]
      rw [e1, e2, List.append_assoc, List.append_assoc]
      exact matchTag_swap (LanguageTags b cc) prefs b.defaultLanguage hbase
    · have e1 : LanguageTags b2 cc = LanguageTags b cc ++ [T1] := by
        rw [hL2, hr2, if_neg r2, hL1, if_pos r1]
      have e2 : LanguageTags b2' cc = LanguageTags b cc ++ [T1] := by
        rw [hL4, hr1, if_pos r1, hL3, if_neg r2]
      rw [e1, e2]
  · by_cases r2 : registersNow b cc T2 = true
    · have e1 : LanguageTags b2 cc = LanguageTags b cc ++ [T2] := by
        rw [hL2, hr2, if_pos r2, hL1, if_neg r1]
      have e2 : LanguageTags b2' cc = LanguageTags b cc ++ [T2] := by
        rw [hL4, hr1, if_neg r1, hL3, if_pos r2]
      rw [e1, e2]
    · have e1 : LanguageTags b2 cc = LanguageTags b cc := by
        rw [hL2, hr2, if_neg r2, hL1, if_neg r1]
      have e2 : LanguageTags b2' cc = LanguageTags b cc := by
        rw [hL4, hr1, if_neg r1, hL3, if_neg r2]
      rw [e1, e2]

/-- C3 witness: the amended order-independence at concrete tags "en-US" and "de"
with distinct base languages. -/
theorem c3_witness :
    matchForCountry
        (applyOp (applyOp (NewBundle "c" "tr") (.add "c" "en-US" [msgHello]))
          (.add "c" "de" [msgHello]))
        "c" ["de", "en"] =
      matchForCountry
        (applyOp (applyOp (NewBundle "c" "tr") (.add "c" "de" [msgHello]))
          (.add "c" "en-US" [msgHello]))
        "c" ["de", "en"] :=
  c3_order_independent (NewBundle "c" "tr") "c" "en-US" "de" [msgHello] [msgHello]
    [msgHello] [msgHello] ["de", "en"]
    (applyOp (NewBundle "c" "tr") (.add "c" "en-US" [msgHello]))
    (applyOp (applyOp (NewBundle "c" "tr") (.add "c" "en-US" [msgHello]))
      (.add "c" "de" [msgHello]))
    (applyOp (NewBundle "c" "tr") (.add "c" "de" [msgHello]))
    (applyOp (applyOp (NewBundle "c" "tr") (.add "c" "de" [msgHello]))
      (.add "c" "en-US" [msgHello]))
    (by decide) (by decide) (by rfl) (by rfl) (by rfl) (by rfl)
